import Mathlib

/-!
Verification model of `serverless-import-config-plugin` (src/src/index.ts).

The plugin walks `custom.import` declarations of a serverless service
document, resolves each declared path to a concrete config file, loads it
(either as static data or by invoking an exported factory), rewrites
function handlers and `dirname` placeholders relative to the importing
fragment's directory, recurses into the fragment's own imports, merges the
fragment into the service, and finally hands the newly appearing plugins to
the host plugin manager.

Host collaborators (the serverless variable engine, file reader, module
resolver) are modelled as opaque functions carried in an `Env` record.
Machinery the source file imports from this repository but that is not
included under `src/` (the deep-merge primitive from `./merge`) is modelled
from the spec and marked as such.  JavaScript strings are Lean `String`s;
all string manipulation is done on the underlying character lists so that
every definition evaluates inside the kernel.
-/

/-- A JavaScript plain value as it appears in configuration documents.
`null` also stands for JavaScript `undefined` (the code never distinguishes
the two where this model is used). Objects are ordered key/value lists, as
JavaScript objects preserve insertion order; keys are unique in every value
this model is applied to. -/
inductive JSON where
  | null : JSON
  | bool : Bool → JSON
  | num : Int → JSON
  | str : String → JSON
  | arr : List JSON → JSON
  | obj : List (String × JSON) → JSON

/-- Fuel-bounded structural equality on `JSON` (the type is a nested
inductive, so the recursion is bounded explicitly; any fuel at least the
height of both values decides true equality). -/
def JSON.beq (fuel : Nat) : JSON → JSON → Bool :=
  match fuel with
  | 0 => fun _ _ => false
  | fuel + 1 => fun a b =>
    match a, b with
    | .null, .null => true
    | .bool x, .bool y => x == y
    | .num x, .num y => x == y
    | .str x, .str y => x == y
    | .arr xs, .arr ys =>
      xs.length == ys.length && (List.zip xs ys).all (fun p => JSON.beq fuel p.1 p.2)
    | .obj xs, .obj ys =>
      xs.length == ys.length &&
        (List.zip xs ys).all (fun p => p.1.1 == p.2.1 && JSON.beq fuel p.1.2 p.2.2)
    | _, _ => false

instance : BEq JSON := ⟨JSON.beq 1000⟩

/-- Splits a character list at every occurrence of the separator character,
like JavaScript `string.split(sep)` for a one-character separator. -/
def splitChars (sepc : Char) : List Char → List (List Char)
  | [] => [[]]
  | c :: rest =>
    let r := splitChars sepc rest
    if c = sepc then [] :: r
    else match r with
      | [] => [[c]]
      | g :: gs => (c :: g) :: gs

/-- Joins character-list groups with a separator, like `array.join(sep)`. -/
def interChars (sepl : List Char) : List (List Char) → List Char
  | [] => []
  | [g] => g
  | g :: gs => g ++ sepl ++ interChars sepl gs

/-- First occurrence of a substring: JavaScript
`s.replace(pat, rep)` with a string pattern replaces only the first
occurrence of `pat` in `s` (and returns `s` unchanged when there is none). -/
def replaceFirstChars (pat rep : List Char) : List Char → List Char
  | [] => if pat.isEmpty then rep else []
  | c :: rest =>
    if pat.isPrefixOf (c :: rest) then rep ++ (c :: rest).drop pat.length
    else c :: replaceFirstChars pat rep rest

/-- `s.replace(pat, rep)` for plain-string `pat`/`rep` (no special `$`
patterns in `rep`, which never arise for the directory strings used here). -/
def replaceFirst (s pat rep : String) : String :=
  String.mk (replaceFirstChars pat.data rep.data s.data)

/-- Whether `pat` occurs as a contiguous substring. -/
def containsSub (pat : List Char) : List Char → Bool
  | [] => pat.isEmpty
  | c :: rest => pat.isPrefixOf (c :: rest) || containsSub pat rest

/-- Model of Node's separator normalization: `path.win32.join`/`resolve`
turn forward slashes into backslashes; the posix flavour leaves strings
unchanged. -/
def normalizeSeps (sep : Char) (s : String) : String :=
  if sep = '\\' then String.mk (s.data.map (fun c => if c = '/' then '\\' else c))
  else s

/-- Model of Node `path.join` for the two-argument, `..`-free inputs used by
the plugin (candidate probing and handler rewriting). -/
def pathJoin (sep : Char) (a b : String) : String :=
  normalizeSeps sep (if a = "" then b else if b = "" then a else a ++ String.mk [sep] ++ b)

/-- `toPosixPath` from src/src/index.ts line 129:
`location.split(path.sep).join(path.posix.sep)`. -/
def toPosixPath (sep : Char) (location : String) : String :=
  String.mk (interChars ['/'] (splitChars sep location.data))

/-- Model of Node `path.dirname` for separator-delimited paths without a
trailing separator. -/
def pathDirname (sep : Char) (p : String) : String :=
  match splitChars sep p.data with
  | [] => "."
  | [_] => "."
  | parts =>
    let d := interChars [sep] parts.dropLast
    if d = [] then String.mk [sep] else String.mk d

/-- Model of Node `path.extname`: the suffix of the basename from its last
dot, empty for dotfiles and for names with no dot. -/
def pathExtname (sep : Char) (p : String) : String :=
  let b := (splitChars sep p.data).getLastD []
  match splitChars '.' b with
  | [] => ""
  | [_] => ""
  | [[], _] => ""
  | parts => String.mk ('.' :: parts.getLastD [])

/-- Model of Node `path.relative(base, p)` for the two cases the plugin
exercises: `p` already relative to the working directory `base` (Node
resolves it against `base` and hands it back, with separators normalized),
or `p` an absolute path underneath `base`. -/
def pathRelative (sep : Char) (base p : String) : String :=
  let p' := normalizeSeps sep p
  let b' := normalizeSeps sep base
  if p' = b' then ""
  else if (b'.data ++ [sep]).isPrefixOf p'.data then
    String.mk (p'.data.drop (b'.data.length + 1))
  else p'

/-- `const SERVERLESS = "serverless"` (src/src/index.ts line 9). -/
def SERVERLESS : String := "serverless"

/-- `const DIRNAME = "dirname"` (line 10). -/
def DIRNAME : String := "dirname"

/-- `const JS_EXTNAME = ".js"` (line 11). -/
def JS_EXTNAME : String := ".js"

/-- `const CONFIG_EXTNAMES = new Set([".yml", ".yaml", JS_EXTNAME])` (line
12).  A JavaScript `Set` iterates in insertion order, so the model keeps the
extensions as a list in that order. -/
def CONFIG_EXTNAMES : List String := [".yml", ".yaml", JS_EXTNAME]

/-- The result of `require(...)` for an executable fragment, as far as the
code inspects it: either the module value itself is a function, or it is a
non-function value whose `default` property may or may not be a callable.
An invocation may throw, carrying an error message.  (src lines 170-173) -/
inductive JsExports where
  | fn : (JSON → Except String JSON) → JsExports
  | objWithDefault : Option (JSON → Except String JSON) → JsExports
  | nullish : JsExports

/-- One element of a property path, as produced by the host's
`variables.getProperties` and consumed by `lodash.set`. -/
inductive PathElem where
  | key : String → PathElem
  | idx : Nat → PathElem
deriving DecidableEq

/-- One match reported by the host's `variables.getMatches`: `matchText`
models the `match` field (the matched placeholder token) and `varName` the
`variable` field (the variable name inside it). -/
structure VarMatch where
  matchText : String
  varName : String
deriving DecidableEq

/-- File-system and module-resolution collaborators.
`stat p = some d` models a successful `statSync(p)` whose `isDirectory()`
returns `d`; `none` models a throwing `statSync` (every error is swallowed
into non-existence by `tryOrUndefined` from `./utils`, per §4.1 of the
spec).  `resolveModule spec basedir` models `resolveModule` from `./utils`
(require.resolve from `basedir`), `none` meaning unresolvable. -/
structure FS where
  stat : String → Option Bool
  resolveModule : String → String → Option String

/-- The host collaborators and platform parameters of one activation.
`populate` models the path-phase variable population
(`variables.populateProperty`); `syntaxTest` models the truthiness of
`value.match(variables.variableSyntax)`; `getMatches` models
`variables.getMatches` (`none` is the non-array sentinel);
`getProperties` models `variables.getProperties(config, true, config)`;
`readFile` models `serverless.utils.readFileSync`; `requireJs` models the
dynamic `require` of the resolved path (`path.resolve` is absorbed into the
map's keying); `sep` is the platform `path.sep`; `realpath` is
`REALPATH = realpathSync(".")` (line 13); `docDepth` bounds the
object-recursion of the spec-modelled merge primitive. -/
structure Env where
  sep : Char
  realpath : String
  fs : FS
  populate : String → String
  syntaxTest : String → Bool
  getMatches : String → Option (List VarMatch)
  getProperties : JSON → List (List PathElem × JSON)
  readFile : String → Except String JSON
  requireJs : String → Except String JsExports
  docDepth : Nat

/-- Looks a key up in a JSON object (first occurrence); property access on
any non-object yields `undefined`, modelled as `none`. -/
def lookupField : JSON → String → Option JSON
  | .obj fields, k => (fields.find? (fun kv => kv.1 = k)).map (fun kv => kv.2)
  | _, _ => none

/-- `getImports` (src lines 52-57): reads `config.custom.import`; an array
is returned as is, a non-empty string becomes a one-element list, and
anything else (including a structured record not wrapped in an array, an
absent `custom` or `import` field, and the empty string) yields zero
declarations. -/
def getImports (config : JSON) : List JSON :=
  match (lookupField config "custom").bind (fun c => lookupField c "import") with
  | some (.arr xs) => xs
  | some (.str s) => if s = "" then [] else [.str s]
  | _ => []

/-- The `realOptions` computation of `importConfig` (src lines 158-162):
a declaration that is an object is used as `{ module, inputs }` directly
(an absent `inputs` field stays JavaScript `undefined`, modelled `.null`);
a bare string becomes `{ module: that string, inputs: {} }`.  Declarations
of other shapes are outside the modelled domain (the code would pass them
through and fail later on `undefined` paths). -/
def declParts : JSON → String × JSON
  | .obj fields =>
    ((match lookupField (.obj fields) "module" with
      | some (.str m) => m
      | _ => ""),
     (lookupField (.obj fields) "inputs").getD .null)
  | .str s => (s, .obj [])
  | _ => ("", .obj [])

/-- The directory-probe loop of `resolvePathToImport` (src lines 90-102):
walk the candidate files in order, return the first whose `statSync`
succeeds, and otherwise report every tried path in order. -/
def dirProbeLoop (fs : FS) (pathToImport : String) :
    List String → List String → Except String String
  | [], tries =>
    .error ("Cannot import " ++ pathToImport ++
      ": in the given directory no serverless config can be found\nTried: \n - " ++
      String.mk (interChars "\n - ".data (tries.map String.data)))
  | c :: rest, tries =>
    if (fs.stat c).isSome then .ok c else dirProbeLoop fs pathToImport rest (tries ++ [c])

/-- The module-probe loop of `resolvePathToImport` (src lines 106-119):
attempt module resolution for each candidate in order, return the first
success, and otherwise report every tried module path in order. -/
def moduleProbeLoop (fs : FS) (basedir pathToImport : String) :
    List String → List String → Except String String
  | [], tries =>
    .error ("Cannot import " ++ pathToImport ++
      ": the given module cannot be resolved\nTried: \n - " ++
      String.mk (interChars "\n - ".data (tries.map String.data)))
  | c :: rest, tries =>
    match fs.resolveModule c basedir with
    | some r => .ok r
    | none => moduleProbeLoop fs basedir pathToImport rest (tries ++ [c])

/-- `resolvePathToImport` (src lines 66-120).  The raw path first goes
through the host's variable population; then: a path with a recognized
config extension is returned if it exists literally, else module-resolved,
else an error; an existing directory is probed for `serverless.<ext>`
files; anything else is module-probed for `<path>/serverless.<ext>`. -/
def resolvePathToImport (env : Env) (rawPath basedir : String) : Except String String :=
  let pathToImport := env.populate rawPath
  if CONFIG_EXTNAMES.contains (pathExtname env.sep pathToImport) then
    if (env.fs.stat pathToImport).isSome then .ok pathToImport
    else match env.fs.resolveModule pathToImport basedir with
    | some r => .ok r
    | none => .error ("Cannot import " ++ pathToImport ++ ": the given file doesn\x27t exist")
  else if env.fs.stat pathToImport = some true then
    dirProbeLoop env.fs pathToImport
      (CONFIG_EXTNAMES.map (fun e => pathJoin env.sep pathToImport (SERVERLESS ++ e))) []
  else
    moduleProbeLoop env.fs basedir pathToImport
      (CONFIG_EXTNAMES.map (fun e => pathJoin env.sep pathToImport (SERVERLESS ++ e))) []

/-- The message of the TypeError JavaScript throws when `importFunction` is
not callable (`importFunction(inputs)` with a non-function value, src line
173). -/
def notCallableMsg : String := "importFunction is not a function"

/-- The load step of `importConfig` (src lines 169-175): a resolved path
with the `.js` extension is `require`d and its direct export (if callable)
or else its `default` export is invoked with `inputs`; any other path goes
through the host's `readFileSync`.  Errors carry the underlying message,
to be wrapped by the caller's catch block. -/
def loadFragment (env : Env) (importPath : String) (inputs : JSON) : Except String JSON :=
  if pathExtname env.sep importPath = JS_EXTNAME then
    match env.requireJs importPath with
    | .error e => .error e
    | .ok ex =>
      match (match ex with
             | .fn f => some f
             | .objWithDefault d => d
             | .nullish => none) with
      | some f => f inputs
      | none => .error notCallableMsg
  else env.readFile importPath

/-- Model of `lodash.set(config, path, value)`: writes `value` at the given
property path, replacing non-container intermediates and padding arrays
with nulls as lodash does (the paths the plugin uses always come from
`getProperties` of the same document, so they already exist). -/
def setPath : JSON → List PathElem → JSON → JSON
  | _, [], v => v
  | t, .key k :: rest, v =>
    let fields := match t with | .obj fs => fs | _ => []
    if fields.any (fun kv => kv.1 = k) then
      .obj (fields.map (fun kv => if kv.1 = k then (k, setPath kv.2 rest v) else kv))
    else .obj (fields ++ [(k, setPath .null rest v)])
  | t, .idx i :: rest, v =>
    let xs := match t with | .arr l => l | _ => []
    let padded := if i < xs.length then xs else xs ++ List.replicate (i + 1 - xs.length) .null
    .arr (padded.set i (setPath (padded.getD i .null) rest v))

/-- The dirname-substitution phase of `prepareImportedConfig` (src lines
138-154): enumerate the document's leaf properties, keep the string-valued
ones matching the host's variable syntax whose `getMatches` result is an
array, and for every match whose variable is exactly `dirname` store, at
the property's path, the original value with that match token's first
occurrence replaced by `importDir`.  Note the replacement source is the
property's captured original value on every iteration, and the stores
happen in match order, later stores overwriting earlier ones. -/
def substituteDirname (env : Env) (importDir : String) (config : JSON) : JSON :=
  (env.getProperties config).foldl (fun cfg pv =>
    match pv.2 with
    | .str s =>
      if env.syntaxTest s then
        match env.getMatches s with
        | some ms =>
          (ms.filter (fun m => m.varName = DIRNAME)).foldl
            (fun c m => setPath c pv.1 (.str (replaceFirst s m.matchText importDir))) cfg
        | none => cfg
      else cfg
    | _ => cfg) config

/-- The per-function handler rewrite of `prepareImportedConfig` (src lines
131-135): when the function entry's `handler` field is a string it becomes
`toPosixPath(path.join(importDir, handler))`; any other entry shape is left
untouched. -/
def rewriteHandler (sep : Char) (importDir : String) : JSON → JSON
  | .obj fields =>
    .obj (fields.map (fun kv =>
      if kv.1 = "handler" then
        match kv.2 with
        | .str h => (kv.1, .str (toPosixPath sep (pathJoin sep importDir h)))
        | other => (kv.1, other)
      else kv))
  | other => other

/-- Replaces the value stored under `k` in a JSON object (modelling an
in-place mutation of that property; JavaScript object keys are unique). -/
def setField (config : JSON) (k : String) (v : JSON) : JSON :=
  match config with
  | .obj fields => .obj (fields.map (fun kv => if kv.1 = k then (kv.1, v) else kv))
  | other => other

/-- The handler phase of `prepareImportedConfig` (src lines 127-136):
when the fragment has a `functions` object, every one of its values goes
through `rewriteHandler`; a fragment without one is untouched. -/
def rewriteFunctions (sep : Char) (importDir : String) (config : JSON) : JSON :=
  match lookupField config "functions" with
  | some (.obj fns) =>
    setField config "functions"
      (.obj (fns.map (fun kv => (kv.1, rewriteHandler sep importDir kv.2))))
  | _ => config

/-- `importDir` as computed on src line 128:
`path.relative(REALPATH, path.dirname(importPath))`. -/
def importDirOf (env : Env) (importPath : String) : String :=
  pathRelative env.sep env.realpath (pathDirname env.sep importPath)

/-- `prepareImportedConfig` (src lines 122-155): handler rewrite first,
then dirname substitution, both against the fragment's directory relative
to the project root. -/
def prepareImportedConfig (env : Env) (importPath : String) (config : JSON) : JSON :=
  let importDir := importDirOf env importPath
  substituteDirname env importDir (rewriteFunctions env.sep importDir config)

/-- Modelled from the spec: the repository's deep-merge primitive lives in
`src/merge`, which is not included under `src/`; §6 of the spec fixes its
semantics as "object keys recurse, arrays concatenate, scalars are
overwritten by the source's value", merging the source into the target in
place.  `fuel` bounds the object recursion (any bound at least the height
of the documents realizes that semantics); merged objects keep the target's
key order followed by the source-only keys. -/
def mergeInto (fuel : Nat) : JSON → JSON → JSON :=
  match fuel with
  | 0 => fun _ source => source
  | fuel + 1 => fun target source =>
    match target, source with
    | .obj t, .obj s =>
      .obj ((t.map (fun kv =>
          match s.find? (fun kv2 => kv2.1 = kv.1) with
          | some kv2 => (kv.1, mergeInto fuel kv.2 kv2.2)
          | none => kv)) ++
        s.filter (fun kv2 => ¬ t.any (fun kv => kv.1 = kv2.1)))
    | .arr t, .arr s => .arr (t ++ s)
    | _, s => s

/-- The service's plugin list as the plugin reads it:
`service.plugins?.slice() ?? []` (line 43) and the `difference` argument on
line 190 (lodash tolerates a missing list the same way). -/
def pluginsOf (service : JSON) : List JSON :=
  match lookupField service "plugins" with
  | some (.arr xs) => xs
  | _ => []

/-- Model of `lodash.difference(l, r)`: the members of `l` (in order,
duplicates kept) that do not occur in `r`. -/
def listDifference (l r : List JSON) : List JSON :=
  l.filter (fun x => ¬ r.contains x)

/-- One observable action of an activation, in temporal order:
`log` is `serverless.cli.log("Importing <path>")`; `mergeEvent` carries a
fully prepared fragment at the moment `merge(service, config)` runs;
`loadPluginsEvent` carries the names handed to the host plugin manager;
`errorLogged` is the `console.error` of the top-level catch. -/
inductive Event where
  | log : String → Event
  | mergeEvent : JSON → Event
  | loadPluginsEvent : List JSON → Event
  | errorLogged : String → Event

/-- Runs `step` over sibling declarations the way `importConfigs` (src
lines 59-64) dispatches them and `Promise.all` collects them, determinized
in declaration order (the spec's §4.5 notes the real completion order of
siblings is timing-dependent; none of the verified claims depend on it).
Every sibling runs to completion even when an earlier one failed, and the
first failure in order becomes the rejection of the whole batch. -/
def processDeclsWith (step : JSON → String → List Event × Option String) :
    List JSON → String → List Event × Option String
  | [], _ => ([], none)
  | d :: rest, basedir =>
    let r1 := step d basedir
    let r2 := processDeclsWith step rest basedir
    (r1.1 ++ r2.1, r1.2.orElse (fun _ => r2.2))

/-- `importConfig` (src lines 157-185) as an event trace plus the promise
outcome of this import.  Crucially, line 178 calls
`this.importConfigs(config, ...)` without `await` inside the try block:
an async function never throws synchronously, so the returned promise is
simply dropped.  In consequence (a) `merge(service, config)` on line 184
runs before any nested import has loaded or merged — the nested work's
observable events come after the parent's merge event — and (b) a nested
failure rejects only the dropped promise and never reaches this import's
caller, which the model reflects by discarding the nested error.  `fuel`
bounds the model's recursion; cyclic imports diverge in the real code
(spec §7) and exhaust any fuel here. -/
def processImport (env : Env) : Nat → JSON → String → List Event × Option String
  | 0, _, _ => ([], some "model: import recursion fuel exhausted")
  | fuel + 1, decl, basedir =>
    let rawPath := (declParts decl).1
    let inputs := (declParts decl).2
    match resolvePathToImport env rawPath basedir with
    | .error e => ([], some e)
    | .ok importPath =>
      let logEv := Event.log ("Importing " ++ importPath)
      match loadFragment env importPath inputs with
      | .error msg =>
        ([logEv], some ("Error: Cannot import " ++ importPath ++ "\nCause: " ++ msg))
      | .ok config =>
        let prepared := prepareImportedConfig env importPath config
        let nested := processDeclsWith (processImport env fuel) (getImports prepared)
          (pathDirname env.sep importPath)
        ([logEv, Event.mergeEvent prepared] ++ nested.1, none)

/-- `importConfigs` (src lines 59-64) over a document's declarations. -/
def processDecls (env : Env) (fuel : Nat) (decls : List JSON) (basedir : String) :
    List Event × Option String :=
  processDeclsWith (processImport env fuel) decls basedir

/-- The result of one activation: the plugin snapshot taken on line 43, the
plugin names handed to the host plugin manager, the full temporal event
trace, the service document once the asynchronous import chain has
settled, and the rejection (if any) of the top-level import chain. -/
structure ActivationResult where
  originalPlugins : List JSON
  pluginsPassed : List JSON
  trace : List Event
  finalService : JSON
  topError : Option String

/-- The constructor-driven activation (src lines 40-50 plus 187-199).
JavaScript semantics fix the temporal order the model encodes: the
constructor snapshots the plugins (line 43), starts `importConfigs`
without awaiting it (line 45) — whose body suspends at its first `await`
before any merge can run — and then calls `loadImportedPlugins()`
synchronously (line 49).  `loadImportedPlugins` therefore reads
`service.plugins` exactly as it was at construction time, so the names it
hands to the plugin manager are `difference(pre-import plugins, snapshot)`.
All merge events, and the `console.error` of the top-level catch (lines
45-48) on a rejection, happen strictly later, as the trace shows.  The
final service folds the merge primitive over the merge events in trace
order. -/
def activate (env : Env) (fuel : Nat) (service : JSON) : ActivationResult :=
  let originalPlugins := pluginsOf service
  let imports := processDecls env fuel (getImports service) env.realpath
  let pluginsPassed := listDifference (pluginsOf service) originalPlugins
  let trace := Event.loadPluginsEvent pluginsPassed :: imports.1 ++
    (match imports.2 with
     | some e => [Event.errorLogged e]
     | none => [])
  let finalService := imports.1.foldl (fun svc ev =>
    match ev with
    | Event.mergeEvent frag => mergeInto env.docDepth svc frag
    | _ => svc) service
  ⟨originalPlugins, pluginsPassed, trace, finalService, imports.2⟩

/-- JavaScript `s.replace(pat, rep)` rewrites exactly the first occurrence:
when the pattern's first occurrence starts right after the prefix `a`, the
result keeps `a` and the suffix `b` and substitutes in between. -/
theorem replaceFirstChars_at (pat rep a b : List Char)
    (h : ∀ i, i < a.length → pat.isPrefixOf ((a ++ (pat ++ b)).drop i) = false) :
    replaceFirstChars pat rep (a ++ (pat ++ b)) = a ++ (rep ++ b) := by
  induction a with
  | nil =>
    simp only [List.nil_append]
    rcases hpb : pat ++ b with _ | ⟨c, rest⟩
    · obtain ⟨hp, hb⟩ := List.append_eq_nil.mp hpb
      subst hp hb
      simp [replaceFirstChars]
    · rw [← hpb]
      have hpre : pat.isPrefixOf (pat ++ b) = true :=
        List.isPrefixOf_iff_prefix.mpr (List.prefix_append pat b)
      rcases hp : pat with _ | ⟨pc, prest⟩
      · subst hp
        simp only [List.nil_append] at hpb
        subst hpb
        simp [replaceFirstChars, List.isPrefixOf_nil_left]
      · rw [hp] at hpb
        rw [hpb]
        rw [replaceFirstChars]
        rw [← hpb, ← hp, hpre]
        simp only [if_true]
        rw [List.drop_left]
  | cons c a' ih =>
    have h0 : pat.isPrefixOf (c :: (a' ++ (pat ++ b))) = false := by
      have := h 0 (by simp)
      simpa using this
    simp only [List.cons_append]
    rw [replaceFirstChars, h0]
    simp only [Bool.false_eq_true, if_false]
    rw [ih]
    intro i hi
    have := h (i + 1) (by simpa using Nat.succ_lt_succ hi)
    simpa using this

/-- The empty pattern occurs in every character list. -/
theorem containsSub_nil (l : List Char) : containsSub [] l = true := by
  cases l <;> simp [containsSub, List.isPrefixOf_nil_left]

/-- A substring of `a` is a substring of `a ++ x`. -/
theorem containsSub_append_left (t a x : List Char) (h : containsSub t a = true) :
    containsSub t (a ++ x) = true := by
  induction a with
  | nil =>
    simp only [containsSub] at h
    have ht : t = [] := by simpa using h
    subst ht
    exact containsSub_nil x
  | cons c a' ih =>
    simp only [containsSub, Bool.or_eq_true] at h ⊢
    rcases h with h | h
    · left
      have hpre := List.isPrefixOf_iff_prefix.mp h
      exact List.isPrefixOf_iff_prefix.mpr
        (hpre.trans (by simp [List.prefix_append]))
    · right
      exact ih h

/-- A substring of `b` is a substring of `x ++ b`. -/
theorem containsSub_append_right (t b x : List Char) (h : containsSub t b = true) :
    containsSub t (x ++ b) = true := by
  induction x with
  | nil => exact h
  | cons c x' ih =>
    simp only [List.cons_append, containsSub, Bool.or_eq_true]
    right
    exact ih

/-- When every string fails the host's variable-syntax test, the dirname
substitution phase leaves the fragment unchanged (every fold step is the
identity). -/
theorem substituteDirname_no_vars (env : Env) (importDir : String) (config : JSON)
    (h : ∀ s, env.syntaxTest s = false) :
    substituteDirname env importDir config = config := by
  unfold substituteDirname
  generalize env.getProperties config = props
  induction props generalizing config with
  | nil => rfl
  | cons p ps ih =>
    rw [List.foldl_cons]
    have hstep :
        (match p.2 with
         | JSON.str s =>
           if env.syntaxTest s then
             match env.getMatches s with
             | some ms =>
               (ms.filter (fun m => m.varName = DIRNAME)).foldl
                 (fun c m => setPath c p.1 (.str (replaceFirst s m.matchText importDir))) config
             | none => config
           else config
         | _ => config) = config := by
      cases p.2 <;> simp [h]
    rw [hstep]
    exact ih config

/-- Concrete activation scenario for the plugin-reconciliation claim: the
service declares one plugin and one import, and the imported fragment
contributes the plugin `imported-plugin`. -/
def reconcileFS : FS :=
  { stat := fun p => if p = "fragment.yml" then some false else none,
    resolveModule := fun _ _ => none }

/-- Environment for the reconciliation scenario: `fragment.yml` exists and
parses to a fragment whose `plugins` list is `["imported-plugin"]`. -/
def reconcileEnv : Env :=
  { sep := '/', realpath := "/project", fs := reconcileFS,
    populate := id, syntaxTest := fun _ => false, getMatches := fun _ => none,
    getProperties := fun _ => [],
    readFile := fun p =>
      if p = "fragment.yml" then .ok (.obj [("plugins", .arr [.str "imported-plugin"])])
      else .error "ENOENT",
    requireJs := fun _ => .error "not a module", docDepth := 10 }

/-- Root service for the reconciliation scenario. -/
def reconcileService : JSON :=
  .obj [("custom", .obj [("import", .str "fragment.yml")]),
        ("plugins", .arr [.str "base-plugin"])]

/-- C1: the claim states plugin reconciliation runs only after every import
has completed and hands the plugin manager exactly the final plugin list
minus the snapshot.  The code violates this: the constructor calls
`loadImportedPlugins()` (line 49) synchronously, while `importConfigs`
(line 45) is asynchronous and not awaited, so every merge runs strictly
after the reconciliation step.  At this input the trace shows the
plugin-manager hand-off happening before the fragment's merge, the list
handed over is empty, yet the settled service's plugin list minus the
snapshot is `["imported-plugin"]`. -/
theorem c1_reconciliation_runs_before_imports :
    (activate reconcileEnv 10 reconcileService).pluginsPassed = [] ∧
    (activate reconcileEnv 10 reconcileService).trace =
      [Event.loadPluginsEvent [],
       Event.log "Importing fragment.yml",
       Event.mergeEvent (.obj [("plugins", .arr [.str "imported-plugin"])])] ∧
    listDifference (pluginsOf (activate reconcileEnv 10 reconcileService).finalService)
      (activate reconcileEnv 10 reconcileService).originalPlugins =
      [.str "imported-plugin"] :=
  ⟨rfl, rfl, rfl⟩

/-- File system for the nested-import scenario: the root imports the
fragment file `a/serverless.yml`; that fragment declares the import
`modB.yml`, which exists only as a module resolvable from base directory
`"a"` (the fragment's own directory) — not from the project root. -/
def nestedFS : FS :=
  { stat := fun p => if p = "a/serverless.yml" then some false else none,
    resolveModule := fun s b =>
      if s = "modB.yml" && b = "a" then some "/modules/modB.yml" else none }

/-- Environment for the nested-import scenario. -/
def nestedEnv : Env :=
  { sep := '/', realpath := "/project", fs := nestedFS,
    populate := id, syntaxTest := fun _ => false, getMatches := fun _ => none,
    getProperties := fun _ => [],
    readFile := fun p =>
      if p = "a/serverless.yml" then
        .ok (.obj [("custom", .obj [("import", .str "modB.yml")])])
      else if p = "/modules/modB.yml" then .ok (.obj [("bkey", .str "bval")])
      else .error "ENOENT",
    requireJs := fun _ => .error "not a module", docDepth := 10 }

/-- Root service for the nested-import scenario. -/
def nestedService : JSON := .obj [("custom", .obj [("import", .str "a/serverless.yml")])]

/-- C2: the claim states a fragment's nested imports are fully processed
before the fragment's own merge completes.  The base-directory half is
true — the nested `modB.yml` resolves precisely because the recursion
passes `path.dirname("a/serverless.yml") = "a"`, as the last two conjuncts
show (resolution from the project root fails).  But the ordering half is
false in the code: line 178 calls `this.importConfigs(config, ...)` without
`await`, so `merge(service, config)` on line 184 runs before the nested
declaration has even loaded.  The trace at this input shows the fragment's merge
event strictly before the nested fragment's log and merge events. -/
theorem c2_fragment_merges_before_nested_import :
    (activate nestedEnv 10 nestedService).trace =
      [Event.loadPluginsEvent [],
       Event.log "Importing a/serverless.yml",
       Event.mergeEvent (.obj [("custom", .obj [("import", .str "modB.yml")])]),
       Event.log "Importing /modules/modB.yml",
       Event.mergeEvent (.obj [("bkey", .str "bval")])] ∧
    nestedEnv.fs.resolveModule "modB.yml" nestedEnv.realpath = none ∧
    nestedEnv.fs.resolveModule "modB.yml" (pathDirname nestedEnv.sep "a/serverless.yml") =
      some "/modules/modB.yml" :=
  ⟨rfl, rfl, rfl⟩

/-- File system for the dropped-error scenario: the root's import
`a/serverless.yml` loads fine, but the fragment's own import `missing.yml`
neither exists nor resolves as a module. -/
def droppedErrFS : FS :=
  { stat := fun p => if p = "a/serverless.yml" then some false else none,
    resolveModule := fun _ _ => none }

/-- Environment for the dropped-error scenario. -/
def droppedErrEnv : Env :=
  { sep := '/', realpath := "/project", fs := droppedErrFS,
    populate := id, syntaxTest := fun _ => false, getMatches := fun _ => none,
    getProperties := fun _ => [],
    readFile := fun p =>
      if p = "a/serverless.yml" then
        .ok (.obj [("custom", .obj [("import", .str "missing.yml")])])
      else .error "ENOENT",
    requireJs := fun _ => .error "not a module", docDepth := 10 }

/-- Root service for the dropped-error scenario. -/
def droppedErrService : JSON :=
  .obj [("custom", .obj [("import", .str "a/serverless.yml")])]

/-- C3: the claim states a resolution failure at any nesting depth
propagates as a thrown error from the top-level activation, logged to the
error stream.  The code violates this for depth two and below: the promise
returned by `this.importConfigs(config, ...)` on line 178 is dropped inside
the try block (an async function never throws synchronously), so a nested
failure rejects only that ignored promise.  At this input the nested
declaration's resolution does fail — processing `missing.yml` yields
the resolution error, as the middle conjunct shows — yet the activation's
top-level outcome carries no error and its trace contains no
`errorLogged` event: the failure is silently swallowed. -/
theorem c3_nested_failure_swallowed :
    (activate droppedErrEnv 10 droppedErrService).topError = none ∧
    (processImport droppedErrEnv 5 (.str "missing.yml")
        (pathDirname droppedErrEnv.sep "a/serverless.yml")).2 =
      some "Cannot import missing.yml: the given file doesn\x27t exist" ∧
    (activate droppedErrEnv 10 droppedErrService).trace =
      [Event.loadPluginsEvent [],
       Event.log "Importing a/serverless.yml",
       Event.mergeEvent (.obj [("custom", .obj [("import", .str "missing.yml")])])] :=
  ⟨rfl, rfl, rfl⟩

/-- C10: a structured `{ module, inputs }` record sitting directly under
`custom.import` (not wrapped in an array) yields no imports and is thereby
silently skipped — `getImports` returns an array as is, wraps a non-empty
string, and returns the empty list for everything else — and likewise an
absent `custom` field, an absent `import` field, or an empty-string import
yields zero imports, while records are processed when they are elements of
an array.  The last conjunct shows the skip is silent and total: with no
declarations extracted, the import walk produces no events and no error. -/
theorem c10_structured_record_skipped :
    (∀ r rest rest2,
      getImports (.obj (("custom", .obj (("import", .obj r) :: rest)) :: rest2)) = []) ∧
    getImports (.obj [("other", .null)]) = [] ∧
    getImports (.obj [("custom", .obj [("other", .null)])]) = [] ∧
    getImports (.obj [("custom", .obj [("import", .str "")])]) = [] ∧
    (∀ xs, getImports (.obj [("custom", .obj [("import", .arr xs)])]) = xs) ∧
    (∀ env fuel basedir r,
      processDecls env fuel
        (getImports (.obj [("custom", .obj [("import", .obj r)])])) basedir = ([], none)) :=
  ⟨fun r rest rest2 => by simp [getImports, lookupField, List.find?],
   rfl, rfl, rfl,
   fun xs => by simp [getImports, lookupField, List.find?],
   fun env fuel basedir r => rfl⟩

/-- C5: for an import path (after variable population) without a recognized
config extension that stats as an existing directory, resolution probes
`serverless.yml`, then `serverless.yaml`, then `serverless.js` inside it in
exactly that order and returns the first that exists; when none exists the
error message lists exactly those three probed paths in that attempt
order. -/
theorem c5_directory_probe_order (env : Env) (rawPath basedir : String)
    (hpop : env.populate rawPath = rawPath)
    (hext : CONFIG_EXTNAMES.contains (pathExtname env.sep rawPath) = false)
    (hdir : env.fs.stat rawPath = some true) :
    resolvePathToImport env rawPath basedir =
      (if (env.fs.stat (pathJoin env.sep rawPath "serverless.yml")).isSome then
        .ok (pathJoin env.sep rawPath "serverless.yml")
      else if (env.fs.stat (pathJoin env.sep rawPath "serverless.yaml")).isSome then
        .ok (pathJoin env.sep rawPath "serverless.yaml")
      else if (env.fs.stat (pathJoin env.sep rawPath "serverless.js")).isSome then
        .ok (pathJoin env.sep rawPath "serverless.js")
      else .error ("Cannot import " ++ rawPath ++
        ": in the given directory no serverless config can be found\nTried: \n - " ++
        (pathJoin env.sep rawPath "serverless.yml" ++ "\n - " ++
         pathJoin env.sep rawPath "serverless.yaml" ++ "\n - " ++
         pathJoin env.sep rawPath "serverless.js"))) := by
  have e1 : SERVERLESS ++ ".yml" = "serverless.yml" := rfl
  have e2 : SERVERLESS ++ ".yaml" = "serverless.yaml" := rfl
  have e3 : SERVERLESS ++ ".js" = "serverless.js" := rfl
  unfold resolvePathToImport
  simp only [hpop]
  simp only [hext, Bool.false_eq_true, if_false]
  simp only [hdir]
  simp only [if_true]
  simp only [CONFIG_EXTNAMES, JS_EXTNAME, List.map_cons, List.map_nil, e1, e2, e3]
  cases h1 : (env.fs.stat (pathJoin env.sep rawPath "serverless.yml")).isSome with
  | true => simp only [dirProbeLoop, h1, if_true]
  | false =>
    cases h2 : (env.fs.stat (pathJoin env.sep rawPath "serverless.yaml")).isSome with
    | true => simp only [dirProbeLoop, h1, h2, Bool.false_eq_true, if_false, if_true]
    | false =>
      cases h3 : (env.fs.stat (pathJoin env.sep rawPath "serverless.js")).isSome with
      | true => simp only [dirProbeLoop, h1, h2, h3, Bool.false_eq_true, if_false, if_true]
      | false =>
        simp only [dirProbeLoop, h1, h2, h3, Bool.false_eq_true, if_false, List.nil_append,
          List.cons_append, List.append_nil]
        refine congrArg Except.error ?_
        apply String.ext
        simp [interChars, String.data_append, List.append_assoc, List.map_cons, List.map_nil]

/-- Directory-probe scenario for the C5 witness: `pkg` is a directory that
contains only `serverless.yaml`. -/
def dirProbeEnv : Env :=
  { sep := '/', realpath := "/project",
    fs := { stat := fun p =>
              if p = "pkg" then some true
              else if p = "pkg/serverless.yaml" then some false
              else none,
            resolveModule := fun _ _ => none },
    populate := id, syntaxTest := fun _ => false, getMatches := fun _ => none,
    getProperties := fun _ => [], readFile := fun _ => .error "ENOENT",
    requireJs := fun _ => .error "not a module", docDepth := 10 }

/-- Witness for C5: in the concrete directory scenario, resolution skips the
missing `pkg/serverless.yml` and returns `pkg/serverless.yaml`. -/
theorem c5_directory_probe_order_witness :
    dirProbeEnv.populate "pkg" = "pkg" ∧
    CONFIG_EXTNAMES.contains (pathExtname dirProbeEnv.sep "pkg") = false ∧
    dirProbeEnv.fs.stat "pkg" = some true ∧
    resolvePathToImport dirProbeEnv "pkg" "/project" = .ok "pkg/serverless.yaml" :=
  ⟨rfl, by decide, rfl, by
    have h := c5_directory_probe_order dirProbeEnv "pkg" "/project" rfl (by decide) rfl
    simpa using h⟩

/-- C6: for an import path (after variable population) carrying a
recognized config extension: when it stats as existing it is returned
directly — for every possible module resolver, i.e. without consulting
module resolution at all; when it does not exist but module resolution from
the base directory succeeds, the module-resolved path is returned; when
both fail, the error says the given file does not exist. -/
theorem c6_config_extension_resolution (env : Env) (rawPath basedir : String)
    (hpop : env.populate rawPath = rawPath)
    (hext : CONFIG_EXTNAMES.contains (pathExtname env.sep rawPath) = true) :
    ((env.fs.stat rawPath).isSome = true →
      ∀ rm, resolvePathToImport
        { env with fs := { env.fs with resolveModule := rm } } rawPath basedir =
        .ok rawPath) ∧
    (env.fs.stat rawPath = none →
      ∀ r, env.fs.resolveModule rawPath basedir = some r →
        resolvePathToImport env rawPath basedir = .ok r) ∧
    (env.fs.stat rawPath = none → env.fs.resolveModule rawPath basedir = none →
      resolvePathToImport env rawPath basedir =
        .error ("Cannot import " ++ rawPath ++ ": the given file doesn\x27t exist")) := by
  refine ⟨?_, ?_, ?_⟩
  · intro hstat rm
    unfold resolvePathToImport
    simp only [hpop]
    simp only [hext]
    simp [hstat]
  · intro hstat r hres
    unfold resolvePathToImport
    simp only [hpop]
    simp only [hext]
    simp [hstat, hres]
  · intro hstat hres
    unfold resolvePathToImport
    simp only [hpop]
    simp only [hext]
    simp [hstat, hres]

/-- Scenario for the C6 witness: `conf.yml` does not exist literally but
resolves as a module from base directory `/project`. -/
def extnameEnv : Env :=
  { sep := '/', realpath := "/project",
    fs := { stat := fun _ => none,
            resolveModule := fun s b =>
              if s = "conf.yml" && b = "/project" then some "/node_modules/conf.yml"
              else none },
    populate := id, syntaxTest := fun _ => false, getMatches := fun _ => none,
    getProperties := fun _ => [], readFile := fun _ => .error "ENOENT",
    requireJs := fun _ => .error "not a module", docDepth := 10 }

/-- Witness for C6: the non-existing `conf.yml` comes back module-resolved. -/
theorem c6_config_extension_resolution_witness :
    extnameEnv.populate "conf.yml" = "conf.yml" ∧
    CONFIG_EXTNAMES.contains (pathExtname extnameEnv.sep "conf.yml") = true ∧
    extnameEnv.fs.stat "conf.yml" = none ∧
    extnameEnv.fs.resolveModule "conf.yml" "/project" = some "/node_modules/conf.yml" ∧
    resolvePathToImport extnameEnv "conf.yml" "/project" = .ok "/node_modules/conf.yml" :=
  ⟨rfl, by decide, rfl, rfl,
   (c6_config_extension_resolution extnameEnv "conf.yml" "/project" rfl
     (by decide)).2.1 rfl "/node_modules/conf.yml" rfl⟩

/-- C7: for an import path (after variable population) with no recognized
config extension that is not an existing directory, resolution attempts
module resolution of `<path>/serverless.yml`, then `<path>/serverless.yaml`,
then `<path>/serverless.js` from the base directory and returns the first
that resolves; when none resolves the error message lists exactly those
three module paths in attempt order. -/
theorem c7_module_probe_order (env : Env) (rawPath basedir : String)
    (hpop : env.populate rawPath = rawPath)
    (hext : CONFIG_EXTNAMES.contains (pathExtname env.sep rawPath) = false)
    (hdir : ¬ env.fs.stat rawPath = some true) :
    resolvePathToImport env rawPath basedir =
      (match env.fs.resolveModule (pathJoin env.sep rawPath "serverless.yml") basedir with
      | some r => .ok r
      | none =>
        (match env.fs.resolveModule (pathJoin env.sep rawPath "serverless.yaml") basedir with
        | some r => .ok r
        | none =>
          (match env.fs.resolveModule (pathJoin env.sep rawPath "serverless.js") basedir with
          | some r => .ok r
          | none => .error ("Cannot import " ++ rawPath ++
              ": the given module cannot be resolved\nTried: \n - " ++
              (pathJoin env.sep rawPath "serverless.yml" ++ "\n - " ++
               pathJoin env.sep rawPath "serverless.yaml" ++ "\n - " ++
               pathJoin env.sep rawPath "serverless.js"))))) := by
  have e1 : SERVERLESS ++ ".yml" = "serverless.yml" := rfl
  have e2 : SERVERLESS ++ ".yaml" = "serverless.yaml" := rfl
  have e3 : SERVERLESS ++ ".js" = "serverless.js" := rfl
  unfold resolvePathToImport
  simp only [hpop]
  simp only [hext, Bool.false_eq_true, if_false]
  simp only [hdir, if_false]
  simp only [CONFIG_EXTNAMES, JS_EXTNAME, List.map_cons, List.map_nil, e1, e2, e3]
  cases h1 : env.fs.resolveModule (pathJoin env.sep rawPath "serverless.yml") basedir with
  | some r => simp only [moduleProbeLoop, h1]
  | none =>
    cases h2 : env.fs.resolveModule (pathJoin env.sep rawPath "serverless.yaml") basedir with
    | some r => simp only [moduleProbeLoop, h1, h2]
    | none =>
      cases h3 : env.fs.resolveModule (pathJoin env.sep rawPath "serverless.js") basedir with
      | some r => simp only [moduleProbeLoop, h1, h2, h3]
      | none =>
        simp only [moduleProbeLoop, h1, h2, h3, List.nil_append, List.cons_append,
          List.append_nil]
        refine congrArg Except.error ?_
        apply String.ext
        simp [interChars, String.data_append, List.append_assoc, List.map_cons, List.map_nil]

/-- Scenario for the C7 witness: the bare import `shared-configs` is neither
a file with a config extension nor a directory; only
`shared-configs/serverless.yaml` resolves as a module. -/
def bareModuleEnv : Env :=
  { sep := '/', realpath := "/project",
    fs := { stat := fun _ => none,
            resolveModule := fun s b =>
              if s = "shared-configs/serverless.yaml" && b = "/project" then
                some "/node_modules/shared-configs/serverless.yaml"
              else none },
    populate := id, syntaxTest := fun _ => false, getMatches := fun _ => none,
    getProperties := fun _ => [], readFile := fun _ => .error "ENOENT",
    requireJs := fun _ => .error "not a module", docDepth := 10 }

/-- Witness for C7: the `.yml` candidate fails to resolve, the `.yaml`
candidate is returned. -/
theorem c7_module_probe_order_witness :
    bareModuleEnv.populate "shared-configs" = "shared-configs" ∧
    CONFIG_EXTNAMES.contains (pathExtname bareModuleEnv.sep "shared-configs") = false ∧
    ¬ bareModuleEnv.fs.stat "shared-configs" = some true ∧
    resolvePathToImport bareModuleEnv "shared-configs" "/project" =
      .ok "/node_modules/shared-configs/serverless.yaml" :=
  ⟨rfl, by decide, by decide, by
    have h := c7_module_probe_order bareModuleEnv "shared-configs" "/project" rfl
      (by decide) (by decide)
    simpa using h⟩

/-- Mapping a function that fixes every member of a list is the identity. -/
theorem map_id_of_eq {α : Type} (f : α → α) (l : List α) (h : ∀ a ∈ l, f a = a) :
    l.map f = l := by
  induction l with
  | nil => rfl
  | cons x xs ih =>
    rw [List.map_cons, h x (by simp)]
    rw [ih (fun a ha => h a (by simp [ha]))]

/-- C8: once a fragment is prepared, every entry of its `functions` mapping
goes through the handler rewrite against the fragment's project-root
relative directory: a string-valued `handler` becomes
`toPosixPath(join(importDir, handler))`, while entries with a non-string or
absent handler stay unchanged.  The host's variable-syntax test is assumed
to reject every string here, isolating the handler phase from the
(separately verified) dirname-substitution phase. -/
theorem c8_handler_rewrite (env : Env) (importPath : String) (fns : List (String × JSON))
    (hNoVars : ∀ s, env.syntaxTest s = false) :
    prepareImportedConfig env importPath (.obj [("functions", .obj fns)]) =
      .obj [("functions", .obj (fns.map (fun kv =>
        (kv.1, rewriteHandler env.sep (importDirOf env importPath) kv.2))))] ∧
    (∀ h fields, (∀ kv ∈ fields, kv.1 ≠ "handler") →
      rewriteHandler env.sep (importDirOf env importPath)
          (.obj (("handler", .str h) :: fields)) =
        .obj (("handler",
          .str (toPosixPath env.sep (pathJoin env.sep (importDirOf env importPath) h))) ::
          fields)) ∧
    (∀ fields, (∀ kv ∈ fields, kv.1 = "handler" → ∀ hs, kv.2 ≠ .str hs) →
      rewriteHandler env.sep (importDirOf env importPath) (.obj fields) = .obj fields) := by
  refine ⟨?_, ?_, ?_⟩
  · unfold prepareImportedConfig
    rw [substituteDirname_no_vars env _ _ hNoVars]
    unfold rewriteFunctions
    simp [lookupField, setField, List.find?]
  · intro h fields hfields
    simp only [rewriteHandler, List.map_cons]
    refine congrArg JSON.obj ?_
    refine congrArg₂ List.cons (by simp) ?_
    exact map_id_of_eq _ fields (fun kv hkv => by rw [if_neg (hfields kv hkv)])
  · intro fields hfields
    simp only [rewriteHandler]
    refine congrArg JSON.obj ?_
    apply map_id_of_eq
    intro kv hkv
    by_cases hk : kv.1 = "handler"
    · rw [if_pos hk]
      rcases hv : kv.2 with _ | b | n | s | xs | fs
      · exact Prod.ext rfl hv.symm
      · exact Prod.ext rfl hv.symm
      · exact Prod.ext rfl hv.symm
      · exact absurd hv (hfields kv hkv hk s)
      · exact Prod.ext rfl hv.symm
      · exact Prod.ext rfl hv.symm
    · rw [if_neg hk]

/-- Plain environment for the C8 witness (no variable placeholders in
play); the project root is `/project` and the platform is posix. -/
def handlerEnv : Env :=
  { sep := '/', realpath := "/project",
    fs := { stat := fun _ => none, resolveModule := fun _ _ => none },
    populate := id, syntaxTest := fun _ => false, getMatches := fun _ => none,
    getProperties := fun _ => [], readFile := fun _ => .error "ENOENT",
    requireJs := fun _ => .error "not a module", docDepth := 10 }

/-- Witness for C8, the claim's own example: handler `src/handler.func` in a
fragment loaded from `fragments/a/serverless.yml` becomes
`fragments/a/src/handler.func`. -/
theorem c8_handler_rewrite_witness :
    (∀ s, handlerEnv.syntaxTest s = false) ∧
    prepareImportedConfig handlerEnv "fragments/a/serverless.yml"
        (.obj [("functions",
          .obj [("hello", .obj [("handler", .str "src/handler.func")])])]) =
      .obj [("functions",
        .obj [("hello", .obj [("handler", .str "fragments/a/src/handler.func")])])] :=
  ⟨fun _ => rfl,
   ((c8_handler_rewrite handlerEnv "fragments/a/serverless.yml"
      [("hello", .obj [("handler", .str "src/handler.func")])] (fun _ => rfl)).1).trans rfl⟩

/-- Environment for the C9 counterexample and witness: `x.js` exists and
`require`s to a factory that returns a fragment echoing the `inputs` value
it received under the key `echo`. -/
def echoJsEnv : Env :=
  { sep := '/', realpath := "/project",
    fs := { stat := fun p => if p = "x.js" then some false else none,
            resolveModule := fun _ _ => none },
    populate := id, syntaxTest := fun _ => false, getMatches := fun _ => none,
    getProperties := fun _ => [],
    readFile := fun _ => .error "ENOENT",
    requireJs := fun p =>
      if p = "x.js" then .ok (.fn (fun v => .ok (.obj [("echo", v)])))
      else .error "not a module",
    docDepth := 10 }

/-- Counterexample to C9 as stated: for the structured declaration
`{ module: "x.js" }` no inputs were supplied, and the claim says the
callable is then invoked with an empty mapping.  The code only defaults
`inputs` to `{}` in the bare-string branch (line 161); for an object
declaration it passes `realOptions.inputs` through unchanged, which is
JavaScript `undefined` when the field is absent.  The echoing factory
exposes the difference: the merged fragment records the undefined value
(modelled `.null`), not the empty object. -/
theorem c9_counterexample_inputs_not_defaulted :
    (processImport echoJsEnv 5 (.obj [("module", .str "x.js")]) "/project").1 =
      [Event.log "Importing x.js", Event.mergeEvent (.obj [("echo", .null)])] ∧
    declParts (.obj [("module", .str "x.js")]) = ("x.js", .null) ∧
    JSON.obj [("echo", JSON.null)] ≠ JSON.obj [("echo", JSON.obj [])] :=
  ⟨rfl, rfl, by simp⟩

/-- C9 (amended): loading a resolved `.js` path `require`s it and takes the
direct export when it is callable, else the `default` export; the callable
is invoked with the declaration's inputs — an empty mapping when the
declaration is a bare string, but the undefined `inputs` value passed
through unchanged when a structured declaration omits it — and its return
value is the fragment; a non-callable export (or a throwing invocation, or
a failing `require`) makes the import fail with an error that names the
resolved path and wraps the underlying cause's message; any other resolved
path is loaded by the host's file reader. -/
theorem c9_js_loading_and_wrapping (env : Env) (importPath : String) (inputs : JSON) :
    (∀ f, pathExtname env.sep importPath = JS_EXTNAME →
      env.requireJs importPath = .ok (.fn f) →
      loadFragment env importPath inputs = f inputs) ∧
    (∀ f, pathExtname env.sep importPath = JS_EXTNAME →
      env.requireJs importPath = .ok (.objWithDefault (some f)) →
      loadFragment env importPath inputs = f inputs) ∧
    (pathExtname env.sep importPath = JS_EXTNAME →
      (env.requireJs importPath = .ok (.objWithDefault none) ∨
       env.requireJs importPath = .ok .nullish) →
      loadFragment env importPath inputs = .error notCallableMsg) ∧
    (pathExtname env.sep importPath ≠ JS_EXTNAME →
      loadFragment env importPath inputs = env.readFile importPath) ∧
    (∀ fuel decl basedir msg,
      resolvePathToImport env (declParts decl).1 basedir = .ok importPath →
      loadFragment env importPath (declParts decl).2 = .error msg →
      processImport env (fuel + 1) decl basedir =
        ([Event.log ("Importing " ++ importPath)],
         some ("Error: Cannot import " ++ importPath ++ "\nCause: " ++ msg))) ∧
    (∀ s, declParts (.str s) = (s, .obj [])) ∧
    (∀ m, declParts (.obj [("module", .str m)]) = (m, .null)) := by
  refine ⟨?_, ?_, ?_, ?_, ?_, fun s => rfl, fun m => rfl⟩
  · intro f hjs hreq
    unfold loadFragment
    simp [hjs, hreq]
  · intro f hjs hreq
    unfold loadFragment
    simp [hjs, hreq]
  · intro hjs hreq
    unfold loadFragment
    rcases hreq with hreq | hreq <;> simp [hjs, hreq]
  · intro hjs
    unfold loadFragment
    simp [hjs]
  · intro fuel decl basedir msg hres hload
    unfold processImport
    simp [hres, hload]

/-- Witness for C9 (amended): at the concrete echoing environment, the
direct callable export is invoked with the empty-object inputs of a
bare-string declaration and its return value is the fragment. -/
theorem c9_js_loading_and_wrapping_witness :
    pathExtname echoJsEnv.sep "x.js" = JS_EXTNAME ∧
    echoJsEnv.requireJs "x.js" = .ok (.fn (fun v => .ok (.obj [("echo", v)]))) ∧
    loadFragment echoJsEnv "x.js" (.obj []) = .ok (.obj [("echo", .obj [])]) :=
  ⟨rfl, rfl,
   (c9_js_loading_and_wrapping echoJsEnv "x.js" (.obj [])).1
     (fun v => .ok (.obj [("echo", v)])) rfl rfl⟩

/-- The literal `dirname` placeholder token as the host's default variable
syntax would match it. -/
def dirnameToken : String := "$\x7bdirname\x7d"

/-- A second placeholder token with a different variable name. -/
def otherToken : String := "$\x7bother\x7d"

/-- Core of the dirname substitution on a one-property fragment, for an
arbitrary replacement string: when the host reports exactly one `dirname`
match whose token's first occurrence starts right after the prefix `a`,
the stored value is the original with that occurrence replaced, and every
substring of the surrounding text (in particular any other placeholder
token) survives. -/
theorem substituteDirname_single_match (env : Env) (importDir k a b : String)
    (m : VarMatch) (ms : List VarMatch)
    (hGP : env.getProperties (.obj [(k, .str (a ++ m.matchText ++ b))]) =
      [([.key k], .str (a ++ m.matchText ++ b))])
    (hSyn : env.syntaxTest (a ++ m.matchText ++ b) = true)
    (hM : env.getMatches (a ++ m.matchText ++ b) = some ms)
    (hOne : ms.filter (fun mm => mm.varName = DIRNAME) = [m])
    (hFirst : ∀ i, i < a.data.length →
      m.matchText.data.isPrefixOf (((a ++ m.matchText ++ b) : String).data.drop i) = false) :
    substituteDirname env importDir (.obj [(k, .str (a ++ m.matchText ++ b))]) =
      .obj [(k, .str (a ++ importDir ++ b))] ∧
    (∀ t : String, containsSub t.data a.data = true ∨ containsSub t.data b.data = true →
      containsSub t.data ((a ++ importDir ++ b) : String).data = true) := by
  constructor
  · unfold substituteDirname
    rw [hGP]
    rw [List.foldl_cons, List.foldl_nil]
    simp only [hSyn, if_true, hM, hOne, List.foldl_cons, List.foldl_nil]
    have hrepl : replaceFirst (a ++ m.matchText ++ b) m.matchText importDir =
        a ++ importDir ++ b := by
      apply String.ext
      show replaceFirstChars m.matchText.data importDir.data
          ((a ++ m.matchText ++ b) : String).data = ((a ++ importDir ++ b) : String).data
      simp only [String.data_append]
      rw [List.append_assoc, List.append_assoc]
      apply replaceFirstChars_at
      intro i hi
      have h2 := hFirst i hi
      simp only [String.data_append] at h2
      rwa [List.append_assoc] at h2
    rw [hrepl]
    simp [setPath]
  · intro t ht
    simp only [String.data_append]
    rcases ht with ht | ht
    · exact containsSub_append_left _ _ _ (containsSub_append_left _ _ _ ht)
    · exact containsSub_append_right _ _ _ ht

/-- C4 (amended): after a fragment loads, a string-valued leaf property
that matches the host's variable syntax and whose reported matches contain
exactly one `dirname` match has the first occurrence of that match token
replaced by `importDirOf env importPath`, i.e. by
`path.relative(REALPATH, path.dirname(importPath))` exactly as
`path.relative` returns it — the code hands that string to
`String.replace` with no `toPosixPath` conversion (unlike handlers), so on
a backslash-separator platform the substituted text keeps backslashes —
while every other placeholder in the surrounding text is left intact.
(When the same string carries several `dirname` matches, each store
recomputes from the captured original value, so only one occurrence ends
up substituted — see the counterexample.)  The property's value is written
as `a ++ token ++ b` with the token's first occurrence starting at `a`;
the platform separator is arbitrary. -/
theorem c4_dirname_substitution (env : Env) (importPath k a b : String)
    (m : VarMatch) (ms : List VarMatch)
    (hGP : env.getProperties (.obj [(k, .str (a ++ m.matchText ++ b))]) =
      [([.key k], .str (a ++ m.matchText ++ b))])
    (hSyn : env.syntaxTest (a ++ m.matchText ++ b) = true)
    (hM : env.getMatches (a ++ m.matchText ++ b) = some ms)
    (hOne : ms.filter (fun mm => mm.varName = DIRNAME) = [m])
    (hFirst : ∀ i, i < a.data.length →
      m.matchText.data.isPrefixOf (((a ++ m.matchText ++ b) : String).data.drop i) = false) :
    prepareImportedConfig env importPath (.obj [(k, .str (a ++ m.matchText ++ b))]) =
      .obj [(k, .str (a ++ importDirOf env importPath ++ b))] ∧
    (∀ t : String, containsSub t.data a.data = true ∨ containsSub t.data b.data = true →
      containsSub t.data
        ((a ++ importDirOf env importPath ++ b) : String).data = true) := by
  have hfns : prepareImportedConfig env importPath
      (.obj [(k, .str (a ++ m.matchText ++ b))]) =
      substituteDirname env (importDirOf env importPath)
        (.obj [(k, .str (a ++ m.matchText ++ b))]) := by
    by_cases hk : k = "functions"
    · subst hk
      rfl
    · unfold prepareImportedConfig rewriteFunctions
      simp [lookupField, List.find?, hk]
  rw [hfns]
  exact substituteDirname_single_match env (importDirOf env importPath) k a b m ms
    hGP hSyn hM hOne hFirst

/-- Environment for the posix half of the C4 counterexample: the host's
matcher reports both occurrences of the `dirname` placeholder in the
doubled value, exactly as the serverless variable engine's global-regex
`getMatches` does. -/
def doubledDirnameEnv : Env :=
  { sep := '/', realpath := "/project",
    fs := { stat := fun _ => none, resolveModule := fun _ _ => none },
    populate := id,
    syntaxTest := fun s => containsSub dirnameToken.data s.data,
    getMatches := fun s =>
      if s = dirnameToken ++ "/x/" ++ dirnameToken then
        some [⟨dirnameToken, "dirname"⟩, ⟨dirnameToken, "dirname"⟩]
      else none,
    getProperties := fun c =>
      match c with
      | .obj [(k, v)] => [([.key k], v)]
      | _ => [],
    readFile := fun _ => .error "ENOENT",
    requireJs := fun _ => .error "not a module", docDepth := 10 }

/-- Environment for the platform half of the C4 counterexample: a win32
platform, whose `path.sep` is a backslash, with project root `C:\proj`;
the fragment's one property is exactly the `dirname` placeholder. -/
def win32DirnameEnv : Env :=
  { sep := '\\', realpath := "C:\\proj",
    fs := { stat := fun _ => none, resolveModule := fun _ _ => none },
    populate := id,
    syntaxTest := fun s => containsSub dirnameToken.data s.data,
    getMatches := fun s =>
      if s = dirnameToken then some [⟨dirnameToken, "dirname"⟩] else none,
    getProperties := fun c =>
      match c with
      | .obj [(k, v)] => [([.key k], v)]
      | _ => [],
    readFile := fun _ => .error "ENOENT",
    requireJs := fun _ => .error "not a module", docDepth := 10 }

/-- Counterexample to C4 as stated, refuting both of its universal parts on
the preparation of concrete fragments.  First half: in the fragment value
`"${dirname}/x/${dirname}"` loaded from `fragments/a/serverless.yml`, both
reported `dirname` matches should be replaced per the claim, but each
forEach iteration recomputes `property.value.replace(match, importDir)`
from the captured original value (src line 151) and `String.replace` with a
string pattern only touches the first occurrence, so the prepared fragment
still contains the second placeholder token.  Second half: on a
backslash-separator platform the fragment value `"${dirname}"` loaded from
`fragments\a\serverless.yml` becomes `"fragments\a"` — the raw
`path.relative` output, with a backslash — and not the forward-slash form
`"fragments/a"` the claim promises regardless of platform (the `toPosixPath`
conversion on src line 129 is applied to handlers only, never to the
substituted directory). -/
theorem c4_counterexample_second_placeholder_kept :
    (prepareImportedConfig doubledDirnameEnv "fragments/a/serverless.yml"
        (.obj [("key1", .str (dirnameToken ++ "/x/" ++ dirnameToken))]) =
      .obj [("key1", .str ("fragments/a/x/" ++ dirnameToken))] ∧
     containsSub dirnameToken.data ("fragments/a/x/" ++ dirnameToken : String).data = true ∧
     ("fragments/a/x/" ++ dirnameToken : String) ≠ "fragments/a/x/fragments/a") ∧
    (prepareImportedConfig win32DirnameEnv "fragments\\a\\serverless.yml"
        (.obj [("k", .str dirnameToken)]) =
      .obj [("k", .str "fragments\\a")] ∧
     importDirOf win32DirnameEnv "fragments\\a\\serverless.yml" = "fragments\\a" ∧
     toPosixPath win32DirnameEnv.sep "fragments\\a" = "fragments/a" ∧
     ("fragments\\a" : String) ≠ "fragments/a") :=
  ⟨⟨rfl, rfl, by decide⟩, ⟨rfl, rfl, rfl, by decide⟩⟩

/-- Environment for the C4 witness, on the backslash-separator platform so
the platform-native half of the amended claim is exercised: one string
property carrying one `other` placeholder and one `dirname` placeholder,
in a fragment loaded from `fragments\a\serverless.yml`. -/
def win32MixedEnv : Env :=
  { sep := '\\', realpath := "C:\\proj",
    fs := { stat := fun _ => none, resolveModule := fun _ _ => none },
    populate := id,
    syntaxTest := fun _ => true,
    getMatches := fun s =>
      if s = "pre-" ++ otherToken ++ "-" ++ dirnameToken ++ "-post" then
        some [⟨otherToken, "other"⟩, ⟨dirnameToken, "dirname"⟩]
      else none,
    getProperties := fun c =>
      match c with
      | .obj [(k, v)] => [([.key k], v)]
      | _ => [],
    readFile := fun _ => .error "ENOENT",
    requireJs := fun _ => .error "not a module", docDepth := 10 }

/-- Witness for C4 (amended): on the win32 environment the single `dirname`
placeholder is replaced by the platform-native import directory
`fragments\a` (backslash kept) while the `other` placeholder survives
verbatim. -/
theorem c4_dirname_substitution_witness :
    win32MixedEnv.syntaxTest
        ("pre-" ++ otherToken ++ "-" ++ dirnameToken ++ "-post") = true ∧
    win32MixedEnv.getMatches
        ("pre-" ++ otherToken ++ "-" ++ dirnameToken ++ "-post") =
      some [⟨otherToken, "other"⟩, ⟨dirnameToken, "dirname"⟩] ∧
    importDirOf win32MixedEnv "fragments\\a\\serverless.yml" = "fragments\\a" ∧
    prepareImportedConfig win32MixedEnv "fragments\\a\\serverless.yml"
        (.obj [("k", .str ("pre-" ++ otherToken ++ "-" ++ dirnameToken ++ "-post"))]) =
      .obj [("k", .str ("pre-" ++ otherToken ++ "-fragments\\a-post"))] ∧
    containsSub otherToken.data
      ("pre-" ++ otherToken ++ "-fragments\\a-post" : String).data = true := by
  have h := c4_dirname_substitution win32MixedEnv "fragments\\a\\serverless.yml" "k"
    ("pre-" ++ otherToken ++ "-") "-post" ⟨dirnameToken, "dirname"⟩
    [⟨otherToken, "other"⟩, ⟨dirnameToken, "dirname"⟩]
    rfl rfl rfl rfl (by decide)
  refine ⟨rfl, rfl, rfl, ?_, ?_⟩
  · exact h.1.trans rfl
  · have h2 := h.2 otherToken (Or.inl (by decide))
    simpa using h2
